import Mathlib

/-!
# ScatterBrain: the thoughts service of `server.go`

A shallow embedding of the five request handlers of `server.go` and of the
process-wide `thoughtMap` they share, followed by theorems about the
create / read / update / list contract.

Conventions of the embedding.

* The global `thoughtMap` is passed in and out of every handler, so a handler is a
  function from the store, the response writer and the request to the store and
  the response writer after the call.
* Values a handler obtains from outside the program are arguments of the handler:
  the identifier returned by `uuid.V4()`, the instant returned by `time.Now()`,
  the order in which `range` walks the map, and the behaviour of the two
  libraries that read text (`uuid.FromString`, `json.Decoder.Decode`), bundled in
  `Lib`.
* `json.Marshal` is modelled by the JSON document it produces.  On the record
  types of this program it cannot fail, so the `err != nil` branches after
  `json.Marshal` are kept in the handlers but are never taken.
-/

set_option linter.dupNamespace false

namespace ScatterBrain

/-! ## Values -/

/-- The 16 bytes of a `uuid.UUID`, read as one number below `2 ^ 128`. -/
structure UUID where
  val : Nat
  isLt : val < 2 ^ 128
  deriving DecidableEq

/-- An instant as returned by `time.Now()`; only equality of instants matters here. -/
structure Time where
  unixNano : Int
  deriving DecidableEq

/-- Modelled from the spec: the type declaration of `ThoughtsID` is not part of
`server.go`; the composite literal `ThoughtsID{id}` fixes it as a record with the
single field of type `uuid.UUID`, used as the key of the store. -/
structure ThoughtsID where
  UUID : UUID
  deriving DecidableEq

/-- Modelled from the spec: the type declaration of `Thoughts` is not part of
`server.go`; section 3 of the spec and the literal in `thoughtsPostHandler` give
the four fields `ID`, `CreatedTime`, `Title`, `Content`. -/
structure Thoughts where
  ID : ThoughtsID
  CreatedTime : Time
  Title : String
  Content : String
  deriving DecidableEq

/-- Modelled from the spec: the type declaration of `ThoughtsPost` is not part of
`server.go`; the creation input has the fields `Title` and `Thought`. -/
structure ThoughtsPost where
  Title : String
  Thought : String
  deriving DecidableEq

/-- The payload type of `pingHandler`. -/
structure Status where
  Status : String
  Service : String
  deriving DecidableEq

/-- The zero value of `Thoughts` (what `var thought Thoughts` holds, and what
indexing the map at an absent key yields). -/
def Thoughts.zero : Thoughts :=
  { ID := ⟨⟨0, by norm_num⟩⟩, CreatedTime := ⟨0⟩, Title := "", Content := "" }

/-! ## JSON documents -/

/-- JSON documents written by the handlers.  `uuid u` is the JSON string holding
the canonical text of `u` and `time t` the JSON string holding the RFC 3339 text
of `t`; both text forms are produced by libraries outside this program. -/
inductive Json where
  | null
  | str (s : String)
  | uuid (u : UUID)
  | time (t : Time)
  | arr (elems : List Json)
  | obj (fields : List (String × Json))

/-- A Go slice of `Thoughts`: either the nil slice or a non-nil slice with elements. -/
inductive ThoughtsSlice where
  | nil
  | mk (elems : List Thoughts)
  deriving DecidableEq

/-- Slice built by `make([]Thoughts, 0)`: non-nil, no element. -/
def ThoughtsSlice.make0 : ThoughtsSlice := .mk []

/-- Go `append(s, x)`. -/
def ThoughtsSlice.append : ThoughtsSlice → Thoughts → ThoughtsSlice
  | .nil, x => .mk [x]
  | .mk xs, x => .mk (xs ++ [x])

/-- Document `json.Marshal` produces for a `Status`. -/
def marshalStatus (s : Status) : Except String Json :=
  .ok (.obj [("Status", .str s.Status), ("Service", .str s.Service)])

/-- Document of one `Thoughts` record. -/
def thoughtsJson (t : Thoughts) : Json :=
  .obj [("ID", .uuid t.ID.UUID), ("CreatedTime", .time t.CreatedTime),
        ("Title", .str t.Title), ("Content", .str t.Content)]

/-- Document `json.Marshal` produces for a `Thoughts`.  The error result of
`json.Marshal` can arise for such a record only from an instant whose year lies
outside 0..9999, which neither `time.Now()` nor the decoding of an RFC 3339 text
yields; the result is therefore always `ok`. -/
def marshalThoughts (t : Thoughts) : Except String Json :=
  .ok (thoughtsJson t)

/-- Document `json.Marshal` produces for a `[]Thoughts`: `null` for the nil slice,
an array otherwise. -/
def marshalSlice : ThoughtsSlice → Except String Json
  | .nil => .ok .null
  | .mk xs => .ok (.arr (xs.map thoughtsJson))

/-! ## The store: `map[ThoughtsID]Thoughts` -/

/-- A Go map from `ThoughtsID` to `Thoughts`: a list of entries in which no key
occurs twice.  The position of an entry in the list has no meaning for the
program; `range` walks the keys in an order chosen by the runtime. -/
structure ThoughtMap where
  entries : List (ThoughtsID × Thoughts)
  nodup : (entries.map Prod.fst).Nodup

namespace ThoughtMap

/-- Store built by `make(map[ThoughtsID]Thoughts)` in `init`. -/
def empty : ThoughtMap := ⟨[], List.nodup_nil⟩

/-- Keys of the map. -/
def keys (m : ThoughtMap) : List ThoughtsID := m.entries.map Prod.fst

/-- Values of the map. -/
def values (m : ThoughtMap) : List Thoughts := m.entries.map Prod.snd

/-- Lookup on a list of entries: the value of the first entry with key `k`. -/
def lookupEntries (k : ThoughtsID) : List (ThoughtsID × Thoughts) → Option Thoughts
  | [] => none
  | (k', v) :: rest => if k' = k then some v else lookupEntries k rest

/-- Two-valued index expression `v, ok := m[k]`: `some v` when `ok`. -/
def lookup (m : ThoughtMap) (k : ThoughtsID) : Option Thoughts :=
  lookupEntries k m.entries

/-- One-valued index expression `m[k]`: the zero value at an absent key. -/
def index (m : ThoughtMap) (k : ThoughtsID) : Thoughts :=
  (m.lookup k).getD Thoughts.zero

/-- Assignment `m[k] = v`: any entry at `k` is replaced, all others are kept. -/
def assign (m : ThoughtMap) (k : ThoughtsID) (v : Thoughts) : ThoughtMap where
  entries := (k, v) :: m.entries.filter (fun e => decide (e.1 ≠ k))
  nodup := by
    rw [List.map_cons, List.nodup_cons]
    constructor
    · intro hmem
      obtain ⟨e, he, hk⟩ := List.mem_map.mp hmem
      have hne := (List.mem_filter.mp he).2
      simp at hne
      exact hne hk
    · exact ((List.filter_sublist m.entries).map Prod.fst).nodup m.nodup

end ThoughtMap

/-! ## Requests, responses and the libraries that read text -/

/-- Status codes of `net/http` used by the handlers. -/
abbrev StatusOK : Nat := 200

/-- Status code `http.StatusCreated`. -/
abbrev StatusCreated : Nat := 201

/-- Status code `http.StatusNoContent`. -/
abbrev StatusNoContent : Nat := 204

/-- Status code `http.StatusBadRequest`. -/
abbrev StatusBadRequest : Nat := 400

/-- Status code `http.StatusNotFound`. -/
abbrev StatusNotFound : Nat := 404

/-- Status code `http.StatusInternalServerError`. -/
abbrev StatusInternalServerError : Nat := 500

/-- The part of an `*http.Request` the handlers read: the route variables
(`mux.Vars(r)`) and the body. -/
structure Request where
  vars : List (String × String)
  Body : String

/-- Index expression `vars[name]` on the route variables: the empty string when
the variable is absent. -/
def Request.var (r : Request) (name : String) : String :=
  (r.vars.lookup name).getD ""

/-- Header fields, latest `Set` first. -/
abbrev Header := List (String × String)

/-- Value of a header field, if set. -/
def Header.get (h : Header) (name : String) : Option String :=
  h.lookup name

/-- An `http.ResponseWriter`: the header map behind `rw.Header()`, the status
line once it has been sent, the fields the header map held when the status line
was sent, and the documents written to the body, in order.  Fields that `net/http`
adds on its own account when the handler set none are not recorded. -/
structure ResponseWriter where
  header : Header
  status : Option Nat
  sentHeader : Header
  body : List Json

namespace ResponseWriter

/-- Writer handed to a handler at the start of a request. -/
def fresh : ResponseWriter := ⟨[], none, [], []⟩

/-- Call `rw.Header().Set(name, value)`. -/
def headerSet (rw : ResponseWriter) (name value : String) : ResponseWriter :=
  { rw with header := (name, value) :: rw.header.filter (fun e => decide (e.1 ≠ name)) }

/-- Call `rw.WriteHeader(code)`: sends the status line and the header fields set
so far; a second call changes nothing. -/
def WriteHeader (rw : ResponseWriter) (code : Nat) : ResponseWriter :=
  match rw.status with
  | some _ => rw
  | none => { rw with status := some code, sentHeader := rw.header }

/-- Call `rw.Write(doc)`: sends status 200 first when no status line was sent,
then appends the document to the body. -/
def Write (rw : ResponseWriter) (doc : Json) : ResponseWriter :=
  let rw := rw.WriteHeader StatusOK
  { rw with body := rw.body ++ [doc] }

end ResponseWriter

/-- Modelled from the spec: `httpError` is not part of `server.go`.  Sections 6
and 7 of the spec: a failing request receives the given status code and a JSON
body carrying the message of the error, and JSON responses carry
`Content-Type: application/json`. -/
def httpError (rw : ResponseWriter) (code : Nat) (err : String) : ResponseWriter :=
  ((rw.headerSet "Content-Type" "application/json").WriteHeader code).Write
    (.obj [("error", .str err)])

/-- Behaviour of the libraries that read text: `uuid.FromString` and
`json.NewDecoder(body).Decode` into a `Thoughts` and into a `ThoughtsPost`.  A
failure carries the message of the error. -/
structure Lib where
  FromString : String → Except String UUID
  decodeThoughts : String → Except String Thoughts
  decodeThoughtsPost : String → Except String ThoughtsPost

/-! ## Handlers -/

/-- Handler `pingHandler`: writes the fixed payload; sets no header and no status. -/
def pingHandler (thoughtMap : ThoughtMap) (rw : ResponseWriter) (_r : Request) :
    ThoughtMap × ResponseWriter :=
  let response : Status := ⟨"pong", "scatter-brain"⟩
  match marshalStatus response with
  | .ok resp => (thoughtMap, rw.Write resp)
  | .error _ => (thoughtMap, rw.WriteHeader StatusOK)

/-- Handler `editThoughtsHandler` (PUT /api/thoughts/{id}). -/
def editThoughtsHandler (lib : Lib) (thoughtMap : ThoughtMap) (rw : ResponseWriter)
    (r : Request) : ThoughtMap × ResponseWriter :=
  let idStr := r.var "id"
  match lib.FromString idStr with
  | .error _ =>
    (thoughtMap, httpError rw StatusBadRequest "unable to parse the identifier.")
  | .ok id =>
    match thoughtMap.lookup ⟨id⟩ with
    | none => (thoughtMap, httpError rw StatusNotFound "unable to locate resource.")
    | some _ =>
      match lib.decodeThoughts r.Body with
      | .error _ =>
        (thoughtMap, httpError rw StatusBadRequest "unable to parse the resource")
      | .ok thought =>
        let thoughtMap := thoughtMap.assign ⟨id⟩ thought
        let rw := rw.headerSet "Content-Type" "application/json"
        let rw := rw.WriteHeader StatusNoContent
        (thoughtMap, rw)

/-- Handler `getAllThoughts` (GET /api/thoughts).  `rangeOrder` is the sequence of
keys that `for key := range thoughtMap` yields on this call. -/
def getAllThoughts (rangeOrder : List ThoughtsID) (thoughtMap : ThoughtMap)
    (rw : ResponseWriter) (_r : Request) : ThoughtMap × ResponseWriter :=
  let thoughts := rangeOrder.foldl
    (fun thoughts key => thoughts.append (thoughtMap.index key)) ThoughtsSlice.make0
  match marshalSlice thoughts with
  | .error err => (thoughtMap, httpError rw StatusInternalServerError err)
  | .ok resp =>
    let rw := rw.headerSet "Content-Type" "application/json"
    let rw := rw.WriteHeader StatusOK
    let rw := rw.Write resp
    (thoughtMap, rw)

/-- Handler `thoughtsPostHandler` (POST /api/thoughts).  `V4` is the identifier
returned by `uuid.V4()` and `Now` the instant returned by `time.Now()`. -/
def thoughtsPostHandler (lib : Lib) (V4 : UUID) (Now : Time) (thoughtMap : ThoughtMap)
    (rw : ResponseWriter) (r : Request) : ThoughtMap × ResponseWriter :=
  match lib.decodeThoughtsPost r.Body with
  | .error err => (thoughtMap, httpError rw StatusBadRequest err)
  | .ok thoughtsPost =>
    let thoughtsID : ThoughtsID := ⟨V4⟩
    let thoughts : Thoughts :=
      { ID := thoughtsID, CreatedTime := Now,
        Title := thoughtsPost.Title, Content := thoughtsPost.Thought }
    let thoughtMap := thoughtMap.assign thoughts.ID thoughts
    match marshalThoughts thoughts with
    | .error err => (thoughtMap, httpError rw StatusInternalServerError err)
    | .ok resp =>
      let rw := rw.headerSet "Content-Type" "application/json"
      let rw := rw.WriteHeader StatusCreated
      let rw := rw.Write resp
      (thoughtMap, rw)

/-- Handler `thoughtsGetHandler` (GET /api/thoughts/{id}). -/
def thoughtsGetHandler (lib : Lib) (thoughtMap : ThoughtMap) (rw : ResponseWriter)
    (r : Request) : ThoughtMap × ResponseWriter :=
  let idString := r.var "id"
  match lib.FromString idString with
  | .error err => (thoughtMap, httpError rw StatusBadRequest err)
  | .ok id =>
    match thoughtMap.lookup ⟨id⟩ with
    | some thought =>
      match marshalThoughts thought with
      | .error err => (thoughtMap, httpError rw StatusInternalServerError err)
      | .ok resp =>
        let rw := rw.headerSet "Content-Type" "application/json"
        let rw := rw.WriteHeader StatusOK
        let rw := rw.Write resp
        (thoughtMap, rw)
    | none => (thoughtMap, httpError rw StatusNotFound "Unable to locate the resource.")

/-! ## The service as a sequence of calls -/

/-- One request routed to one of the five API routes of `main`, together with the
values the handler obtains from outside the program while serving it. -/
inductive ApiCall where
  | ping (r : Request)
  | post (V4 : UUID) (Now : Time) (r : Request)
  | list (rangeOrder : List ThoughtsID) (r : Request)
  | get (r : Request)
  | put (r : Request)

/-- Serving one call on a fresh response writer. -/
def serve (lib : Lib) (thoughtMap : ThoughtMap) : ApiCall → ThoughtMap × ResponseWriter
  | .ping r => pingHandler thoughtMap ResponseWriter.fresh r
  | .post V4 Now r => thoughtsPostHandler lib V4 Now thoughtMap ResponseWriter.fresh r
  | .list rangeOrder r => getAllThoughts rangeOrder thoughtMap ResponseWriter.fresh r
  | .get r => thoughtsGetHandler lib thoughtMap ResponseWriter.fresh r
  | .put r => editThoughtsHandler lib thoughtMap ResponseWriter.fresh r

/-- Store after serving the calls one after the other. -/
def serveAll (lib : Lib) (thoughtMap : ThoughtMap) : List ApiCall → ThoughtMap
  | [] => thoughtMap
  | c :: cs => serveAll lib (serve lib thoughtMap c).1 cs

/-- What the outside world guarantees about one call on the store it meets: a
generated identifier is not yet a key of the store, and `range` yields every key
of the store once. -/
def ApiCall.admissible (thoughtMap : ThoughtMap) : ApiCall → Prop
  | .post V4 _ _ => thoughtMap.lookup ⟨V4⟩ = none
  | .list rangeOrder _ => rangeOrder.Perm thoughtMap.keys
  | _ => True

/-- Admissibility of a call can be checked. -/
instance ApiCall.decAdmissible (thoughtMap : ThoughtMap) :
    (c : ApiCall) → Decidable (c.admissible thoughtMap)
  | .post V4 _ _ => inferInstanceAs (Decidable (thoughtMap.lookup ⟨V4⟩ = none))
  | .list rangeOrder _ => inferInstanceAs (Decidable (rangeOrder.Perm thoughtMap.keys))
  | .ping _ => isTrue trivial
  | .get _ => isTrue trivial
  | .put _ => isTrue trivial

/-- Every call of the sequence is admissible on the store it meets. -/
def Admissible (lib : Lib) (thoughtMap : ThoughtMap) : List ApiCall → Prop
  | [] => True
  | c :: cs => c.admissible thoughtMap ∧ Admissible lib (serve lib thoughtMap c).1 cs

/-- Admissibility of a sequence of calls can be checked. -/
instance decAdmissible (lib : Lib) :
    (thoughtMap : ThoughtMap) → (calls : List ApiCall) →
      Decidable (Admissible lib thoughtMap calls)
  | _, [] => isTrue trivial
  | thoughtMap, c :: cs =>
    have := decAdmissible lib (serve lib thoughtMap c).1 cs
    inferInstanceAs (Decidable (c.admissible thoughtMap ∧
      Admissible lib (serve lib thoughtMap c).1 cs))

/-- The `ID` of a decoded update body is the parsed path identifier, whenever
the path identifier parses and the body decodes. -/
def bodyKeepsID : Except String UUID → Except String Thoughts → Prop
  | .ok id, .ok thought => thought.ID = ⟨id⟩
  | _, _ => True

/-- Whether a decoded body keeps the identifier can be checked. -/
instance decBodyKeepsID :
    (parsed : Except String UUID) → (decoded : Except String Thoughts) →
      Decidable (bodyKeepsID parsed decoded)
  | .ok id, .ok thought => inferInstanceAs (Decidable (thought.ID = ⟨id⟩))
  | .ok _, .error _ => isTrue trivial
  | .error _, _ => isTrue trivial

/-- An update call keeps the identifier: when its path identifier parses and its
body decodes, the `ID` of the decoded record is the path identifier. -/
def ApiCall.keepsID (lib : Lib) : ApiCall → Prop
  | .put r => bodyKeepsID (lib.FromString (r.var "id")) (lib.decodeThoughts r.Body)
  | _ => True

/-- Whether a call keeps the identifier can be checked. -/
instance ApiCall.decKeepsID (lib : Lib) : (c : ApiCall) → Decidable (c.keepsID lib)
  | .put r => inferInstanceAs
      (Decidable (bodyKeepsID (lib.FromString (r.var "id")) (lib.decodeThoughts r.Body)))
  | .ping _ => isTrue trivial
  | .post _ _ _ => isTrue trivial
  | .list _ _ => isTrue trivial
  | .get _ => isTrue trivial

/-- Every record of the store carries the key it is stored under as its `ID`. -/
def IdIsKey (thoughtMap : ThoughtMap) : Prop :=
  ∀ k t, thoughtMap.lookup k = some t → t.ID = k

/-! ## Sample data -/

/-- A sample identifier. -/
def idA : UUID := ⟨1, by norm_num⟩

/-- A second sample identifier. -/
def idB : UUID := ⟨2, by norm_num⟩

/-- A sample record stored under `idA`. -/
def thoughtA : Thoughts :=
  { ID := ⟨idA⟩, CreatedTime := ⟨1000⟩, Title := "t1", Content := "c1" }

/-- A sample record stored under `idB`. -/
def thoughtB : Thoughts :=
  { ID := ⟨idB⟩, CreatedTime := ⟨2000⟩, Title := "t3", Content := "c3" }

/-- A sample update body, decoded: the identifier of `thoughtA`, a new title and
content, and a creation time other than the one of `thoughtA`. -/
def editA : Thoughts :=
  { ID := ⟨idA⟩, CreatedTime := ⟨5000⟩, Title := "t2", Content := "c2" }

/-- A sample update body, decoded, that carries the identifier `idB`. -/
def editB : Thoughts :=
  { ID := ⟨idB⟩, CreatedTime := ⟨1000⟩, Title := "t2", Content := "c2" }

/-- A sample library behaviour, given on a few texts: `"a"` and `"b"` are the
canonical texts of `idA` and `idB`; `"post-t1-c1"` is a body with `Title` t1 and
`Thought` c1; `"edit-a"` and `"edit-b"` are bodies that decode to `editA` and
`editB`.  Every other text is rejected. -/
def sampleLib : Lib where
  FromString := fun s =>
    if s = "a" then .ok idA else if s = "b" then .ok idB else .error "uuid: invalid text"
  decodeThoughts := fun s =>
    if s = "edit-a" then .ok editA else if s = "edit-b" then .ok editB
    else .error "json: invalid body"
  decodeThoughtsPost := fun s =>
    if s = "post-t1-c1" then .ok ⟨"t1", "c1"⟩ else .error "json: invalid body"

/-- A store with the single record `thoughtA` under `idA`. -/
def storeA : ThoughtMap := ThoughtMap.empty.assign ⟨idA⟩ thoughtA

/-- A store with `thoughtA` under `idA` and `thoughtB` under `idB`. -/
def storeAB : ThoughtMap := storeA.assign ⟨idB⟩ thoughtB

/-- Calls that break the link between key and `ID`: two creates, with generated
identifiers `idA` and `idB`, then an update of `idA` whose body carries `idB`. -/
def rekeyCalls : List ApiCall :=
  [.post idA ⟨1000⟩ ⟨[], "post-t1-c1"⟩,
   .post idB ⟨2000⟩ ⟨[], "post-t1-c1"⟩,
   .put ⟨[("id", "a")], "edit-b"⟩]

/-- Calls in which the update resubmits the identifier of the path: a create, an
update, a get and a listing. -/
def keptCalls : List ApiCall :=
  [.post idA ⟨1000⟩ ⟨[], "post-t1-c1"⟩,
   .put ⟨[("id", "a")], "edit-a"⟩,
   .get ⟨[("id", "a")], ""⟩,
   .list [⟨idA⟩] ⟨[], ""⟩]

/-! ## Lemmas on the store -/

namespace ThoughtMap

theorem lookupEntries_eq_none_iff (k : ThoughtsID) (l : List (ThoughtsID × Thoughts)) :
    lookupEntries k l = none ↔ k ∉ l.map Prod.fst := by
  induction l with
  | nil => simp [lookupEntries]
  | cons e rest ih =>
    obtain ⟨k', v⟩ := e
    by_cases h : k' = k
    · simp [lookupEntries, h]
    · have h' : ¬ k = k' := fun e => h e.symm
      simp only [lookupEntries, h, if_false, ih, List.map_cons, List.mem_cons, h', false_or]

theorem lookup_eq_none_iff (m : ThoughtMap) (k : ThoughtsID) :
    m.lookup k = none ↔ k ∉ m.keys :=
  lookupEntries_eq_none_iff k m.entries

theorem lookupEntries_filter_ne (k k' : ThoughtsID) (h : k' ≠ k)
    (l : List (ThoughtsID × Thoughts)) :
    lookupEntries k' (l.filter (fun e => decide (e.1 ≠ k))) = lookupEntries k' l := by
  induction l with
  | nil => rfl
  | cons e rest ih =>
    obtain ⟨k1, v⟩ := e
    by_cases h1 : k1 = k
    · have h2 : ¬ k1 = k' := fun e => h (e.symm.trans h1)
      rw [List.filter_cons_of_neg (by simp [h1]), ih]
      simp only [lookupEntries, if_neg h2]
    · rw [List.filter_cons_of_pos (by simp [h1])]
      simp only [lookupEntries, ih]

theorem lookup_assign_self (m : ThoughtMap) (k : ThoughtsID) (v : Thoughts) :
    (m.assign k v).lookup k = some v := by
  simp [lookup, assign, lookupEntries]

theorem lookup_assign_ne (m : ThoughtMap) (k k' : ThoughtsID) (v : Thoughts) (h : k' ≠ k) :
    (m.assign k v).lookup k' = m.lookup k' := by
  have h' : ¬ k = k' := fun e => h e.symm
  simp only [lookup, assign, lookupEntries, h', if_false]
  exact lookupEntries_filter_ne k k' h m.entries

theorem keys_filter_ne (k : ThoughtsID) (l : List (ThoughtsID × Thoughts)) :
    (l.filter (fun e => decide (e.1 ≠ k))).map Prod.fst =
      (l.map Prod.fst).filter (fun x => decide (x ≠ k)) := by
  induction l with
  | nil => rfl
  | cons e rest ih =>
    by_cases h : e.1 = k
    · rw [List.filter_cons_of_neg (by simp [h]), List.map_cons,
        List.filter_cons_of_neg (by simp [h]), ih]
    · rw [List.filter_cons_of_pos (by simp [h]), List.map_cons, List.map_cons,
        List.filter_cons_of_pos (by simp [h]), ih]

theorem keys_assign_of_absent (m : ThoughtMap) (k : ThoughtsID) (v : Thoughts)
    (h : m.lookup k = none) : (m.assign k v).keys = k :: m.keys := by
  have hk : k ∉ m.keys := (lookup_eq_none_iff m k).mp h
  simp only [keys, assign, List.map_cons, keys_filter_ne]
  congr 1
  apply List.filter_eq_self.mpr
  intro x hx
  simp only [decide_eq_true_eq]
  intro hxk
  exact hk (hxk ▸ hx)

theorem keys_assign_of_present (m : ThoughtMap) (k : ThoughtsID) (v old : Thoughts)
    (h : m.lookup k = some old) : (m.assign k v).keys.Perm m.keys := by
  have hk : k ∈ m.keys := by
    by_contra hn
    rw [(lookup_eq_none_iff m k).mpr hn] at h
    exact Option.noConfusion h
  have hnd : m.keys.Nodup := m.nodup
  simp only [keys, assign, List.map_cons, keys_filter_ne]
  have herase : (m.entries.map Prod.fst).erase k =
      (m.entries.map Prod.fst).filter (fun x => decide (x ≠ k)) := by
    have he := hnd.erase_eq_filter k
    rw [keys] at he
    rw [he]
    congr 1
    funext x
    by_cases hx : x = k <;> simp [hx]
  rw [← herase]
  exact (List.perm_cons_erase hk).symm

end ThoughtMap

/-! ## Lemmas on responses -/

theorem httpError_fresh_status (code : Nat) (err : String) :
    (httpError ResponseWriter.fresh code err).status = some code := rfl

theorem httpError_fresh_body (code : Nat) (err : String) :
    (httpError ResponseWriter.fresh code err).body = [Json.obj [("error", Json.str err)]] := rfl

/-! ## Update of a missing record -/

/-- C4: for every store, every path identifier that parses but is not a key of
the store, and every request body and decoder behaviour, `editThoughtsHandler`
answers with the 404 error response, a response that does not depend on the body,
and returns the store it was given. -/
theorem editThoughtsHandler_missing (lib : Lib) (m : ThoughtMap) (r : Request) (id : UUID)
    (hid : lib.FromString (r.var "id") = .ok id) (habs : m.lookup ⟨id⟩ = none) :
    (editThoughtsHandler lib m ResponseWriter.fresh r).1 = m ∧
    (editThoughtsHandler lib m ResponseWriter.fresh r).2.status = some 404 ∧
    (editThoughtsHandler lib m ResponseWriter.fresh r).2 =
      httpError ResponseWriter.fresh StatusNotFound "unable to locate resource." := by
  simp [editThoughtsHandler, hid, habs, httpError_fresh_status]

/-- Witness of C4 on the sample store: a well-formed update body sent to the
absent identifier `idB`. -/
theorem editThoughtsHandler_missing_witness :
    sampleLib.FromString ((⟨[("id", "b")], "edit-b"⟩ : Request).var "id") = .ok idB ∧
    storeA.lookup ⟨idB⟩ = none ∧
    sampleLib.decodeThoughts "edit-b" = .ok editB ∧
    (editThoughtsHandler sampleLib storeA ResponseWriter.fresh ⟨[("id", "b")], "edit-b"⟩).1
      = storeA ∧
    (editThoughtsHandler sampleLib storeA ResponseWriter.fresh
      ⟨[("id", "b")], "edit-b"⟩).2.status = some 404 :=
  have h := editThoughtsHandler_missing sampleLib storeA ⟨[("id", "b")], "edit-b"⟩ idB
    rfl (by decide)
  ⟨rfl, by decide, rfl, h.1, h.2.1⟩

/-! ## Get by id -/

/-- C5: the status of `thoughtsGetHandler` is decided by the path identifier and
the store alone.  It is 400 exactly when the identifier text does not parse, 404
exactly when it parses to an identifier that is not a key of the store, and in
the remaining case, where it parses to a key of the store, it is 200 and the body
is the document of exactly the record stored under that key. -/
theorem thoughtsGetHandler_status (lib : Lib) (m : ThoughtMap) (r : Request) :
    ((thoughtsGetHandler lib m ResponseWriter.fresh r).2.status = some 400 ↔
      ∃ err, lib.FromString (r.var "id") = .error err) ∧
    ((thoughtsGetHandler lib m ResponseWriter.fresh r).2.status = some 404 ↔
      ∃ id, lib.FromString (r.var "id") = .ok id ∧ m.lookup ⟨id⟩ = none) ∧
    (((thoughtsGetHandler lib m ResponseWriter.fresh r).2.status = some 200 ∧
        ∃ id thought, lib.FromString (r.var "id") = .ok id ∧
          m.lookup ⟨id⟩ = some thought ∧
          (thoughtsGetHandler lib m ResponseWriter.fresh r).2.body = [thoughtsJson thought]) ↔
      ¬ ((∃ err, lib.FromString (r.var "id") = .error err) ∨
         ∃ id, lib.FromString (r.var "id") = .ok id ∧ m.lookup ⟨id⟩ = none)) := by
  cases hid : lib.FromString (r.var "id") with
  | error err =>
    simp [thoughtsGetHandler, hid, httpError_fresh_status]
  | ok id =>
    cases hl : m.lookup ⟨id⟩ with
    | none =>
      simp [thoughtsGetHandler, hid, hl, httpError_fresh_status]
    | some thought =>
      simp [thoughtsGetHandler, hid, hl, marshalThoughts, ResponseWriter.Write,
        ResponseWriter.WriteHeader, ResponseWriter.headerSet, ResponseWriter.fresh]

/-! ## Update -/

/-- C6: a successful update is a whole-record overwrite at the path identifier
only.  When the path identifier parses to a key of the store and the body decodes
to a record, `editThoughtsHandler` answers 204 with an empty body, the store
afterwards maps the path identifier to the decoded record, every other key maps to
what it mapped to before, and the keys are the same keys as before. -/
theorem editThoughtsHandler_overwrite (lib : Lib) (m : ThoughtMap) (r : Request) (id : UUID)
    (old thought : Thoughts)
    (hid : lib.FromString (r.var "id") = .ok id) (hold : m.lookup ⟨id⟩ = some old)
    (hbody : lib.decodeThoughts r.Body = .ok thought) :
    (editThoughtsHandler lib m ResponseWriter.fresh r).2.status = some 204 ∧
    (editThoughtsHandler lib m ResponseWriter.fresh r).2.body = [] ∧
    (editThoughtsHandler lib m ResponseWriter.fresh r).1.lookup ⟨id⟩ = some thought ∧
    (∀ k, k ≠ ⟨id⟩ →
      (editThoughtsHandler lib m ResponseWriter.fresh r).1.lookup k = m.lookup k) ∧
    (editThoughtsHandler lib m ResponseWriter.fresh r).1.keys.Perm m.keys := by
  have hrun : editThoughtsHandler lib m ResponseWriter.fresh r =
      (m.assign ⟨id⟩ thought,
        ((ResponseWriter.fresh.headerSet "Content-Type" "application/json").WriteHeader
          StatusNoContent)) := by
    simp [editThoughtsHandler, hid, hold, hbody]
  rw [hrun]
  refine ⟨rfl, rfl, ThoughtMap.lookup_assign_self m _ _, ?_, ?_⟩
  · intro k hk
    exact ThoughtMap.lookup_assign_ne m _ k _ hk
  · exact ThoughtMap.keys_assign_of_present m _ _ old hold

/-- Witness of C6 on the sample store with two records: the record under `idA` is
overwritten. -/
theorem editThoughtsHandler_overwrite_witness :
    sampleLib.FromString ((⟨[("id", "a")], "edit-a"⟩ : Request).var "id") = .ok idA ∧
    storeAB.lookup ⟨idA⟩ = some thoughtA ∧
    sampleLib.decodeThoughts "edit-a" = .ok editA ∧
    (editThoughtsHandler sampleLib storeAB ResponseWriter.fresh
      ⟨[("id", "a")], "edit-a"⟩).1.lookup ⟨idA⟩ = some editA ∧
    (editThoughtsHandler sampleLib storeAB ResponseWriter.fresh
      ⟨[("id", "a")], "edit-a"⟩).1.lookup ⟨idB⟩ = some thoughtB :=
  have h := editThoughtsHandler_overwrite sampleLib storeAB ⟨[("id", "a")], "edit-a"⟩ idA
    thoughtA editA rfl (by decide) rfl
  ⟨rfl, by decide, rfl, h.2.2.1, (h.2.2.2.1 ⟨idB⟩ (by decide)).trans (by decide)⟩

/-! ## Create -/

/-- C7: create adds exactly one entry.  When the body decodes to a `ThoughtsPost`
and the generated identifier is not yet a key, `thoughtsPostHandler` answers 201
with the document of the constructed record, the keys afterwards are the old keys
and the generated identifier (one more key), the generated identifier maps to the
constructed record, and every other key maps to what it mapped to before. -/
theorem thoughtsPostHandler_adds_one (lib : Lib) (V4 : UUID) (Now : Time) (m : ThoughtMap)
    (r : Request) (post : ThoughtsPost)
    (hbody : lib.decodeThoughtsPost r.Body = .ok post) (hfresh : m.lookup ⟨V4⟩ = none) :
    (thoughtsPostHandler lib V4 Now m ResponseWriter.fresh r).2.status = some 201 ∧
    (thoughtsPostHandler lib V4 Now m ResponseWriter.fresh r).2.body =
      [thoughtsJson ⟨⟨V4⟩, Now, post.Title, post.Thought⟩] ∧
    (thoughtsPostHandler lib V4 Now m ResponseWriter.fresh r).1.keys.Perm (⟨V4⟩ :: m.keys) ∧
    (thoughtsPostHandler lib V4 Now m ResponseWriter.fresh r).1.keys.length
      = m.keys.length + 1 ∧
    (thoughtsPostHandler lib V4 Now m ResponseWriter.fresh r).1.lookup ⟨V4⟩ =
      some ⟨⟨V4⟩, Now, post.Title, post.Thought⟩ ∧
    (∀ k, k ≠ ⟨V4⟩ →
      (thoughtsPostHandler lib V4 Now m ResponseWriter.fresh r).1.lookup k = m.lookup k) ∧
    (∀ k t, m.lookup k = some t →
      (thoughtsPostHandler lib V4 Now m ResponseWriter.fresh r).1.lookup k = some t) := by
  have hrun : thoughtsPostHandler lib V4 Now m ResponseWriter.fresh r =
      (m.assign ⟨V4⟩ ⟨⟨V4⟩, Now, post.Title, post.Thought⟩,
        (((ResponseWriter.fresh.headerSet "Content-Type" "application/json").WriteHeader
          StatusCreated).Write (thoughtsJson ⟨⟨V4⟩, Now, post.Title, post.Thought⟩))) := by
    simp [thoughtsPostHandler, hbody, marshalThoughts]
  rw [hrun]
  have hkeys := ThoughtMap.keys_assign_of_absent m ⟨V4⟩ ⟨⟨V4⟩, Now, post.Title, post.Thought⟩
    hfresh
  refine ⟨rfl, rfl, ?_, ?_, ThoughtMap.lookup_assign_self m _ _, ?_, ?_⟩
  · rw [hkeys]
  · rw [hkeys, List.length_cons]
  · intro k hk
    exact ThoughtMap.lookup_assign_ne m _ k _ hk
  · intro k t hk
    have hne : k ≠ ⟨V4⟩ := by
      intro h
      rw [h, hfresh] at hk
      exact Option.noConfusion hk
    rw [ThoughtMap.lookup_assign_ne m _ k _ hne, hk]

/-- Witness of C7: a create with the generated identifier `idB` on the sample
store that holds `idA`. -/
theorem thoughtsPostHandler_adds_one_witness :
    sampleLib.decodeThoughtsPost "post-t1-c1" = .ok ⟨"t1", "c1"⟩ ∧
    storeA.lookup ⟨idB⟩ = none ∧
    (thoughtsPostHandler sampleLib idB ⟨2000⟩ storeA ResponseWriter.fresh
      ⟨[], "post-t1-c1"⟩).1.keys.length = 2 ∧
    (thoughtsPostHandler sampleLib idB ⟨2000⟩ storeA ResponseWriter.fresh
      ⟨[], "post-t1-c1"⟩).1.lookup ⟨idA⟩ = some thoughtA :=
  have h := thoughtsPostHandler_adds_one sampleLib idB ⟨2000⟩ storeA ⟨[], "post-t1-c1"⟩
    ⟨"t1", "c1"⟩ rfl (by decide)
  ⟨rfl, by decide, h.2.2.2.1, h.2.2.2.2.2.2 ⟨idA⟩ thoughtA (by decide)⟩

/-! ## Create then read -/

/-- C1: round trip of create then read.  For every store and every body that
decodes to a `ThoughtsPost`, the create answers 201 with a record whose `ID` is the
generated identifier, and a get-by-id whose path text parses to that identifier,
served on the store the create left, answers 200 with a record whose `ID` is that
identifier, whose `Title` is the `Title` of the post and whose `Content` is the
`Thought` field of the post. -/
theorem post_then_get (lib : Lib) (V4 : UUID) (Now : Time) (m : ThoughtMap) (r r2 : Request)
    (post : ThoughtsPost)
    (hbody : lib.decodeThoughtsPost r.Body = .ok post)
    (hid : lib.FromString (r2.var "id") = .ok V4) :
    (thoughtsPostHandler lib V4 Now m ResponseWriter.fresh r).2.status = some 201 ∧
    (thoughtsPostHandler lib V4 Now m ResponseWriter.fresh r).2.body =
      [Json.obj [("ID", Json.uuid V4), ("CreatedTime", Json.time Now),
        ("Title", Json.str post.Title), ("Content", Json.str post.Thought)]] ∧
    (thoughtsGetHandler lib (thoughtsPostHandler lib V4 Now m ResponseWriter.fresh r).1
      ResponseWriter.fresh r2).2.status = some 200 ∧
    ∃ thought : Thoughts,
      (thoughtsGetHandler lib (thoughtsPostHandler lib V4 Now m ResponseWriter.fresh r).1
        ResponseWriter.fresh r2).2.body = [thoughtsJson thought] ∧
      thought.ID = ⟨V4⟩ ∧ thought.Title = post.Title ∧ thought.Content = post.Thought := by
  have hrun : thoughtsPostHandler lib V4 Now m ResponseWriter.fresh r =
      (m.assign ⟨V4⟩ ⟨⟨V4⟩, Now, post.Title, post.Thought⟩,
        (((ResponseWriter.fresh.headerSet "Content-Type" "application/json").WriteHeader
          StatusCreated).Write (thoughtsJson ⟨⟨V4⟩, Now, post.Title, post.Thought⟩))) := by
    simp [thoughtsPostHandler, hbody, marshalThoughts]
  have hget : thoughtsGetHandler lib (m.assign ⟨V4⟩ ⟨⟨V4⟩, Now, post.Title, post.Thought⟩)
      ResponseWriter.fresh r2 =
      (m.assign ⟨V4⟩ ⟨⟨V4⟩, Now, post.Title, post.Thought⟩,
        (((ResponseWriter.fresh.headerSet "Content-Type" "application/json").WriteHeader
          StatusOK).Write (thoughtsJson ⟨⟨V4⟩, Now, post.Title, post.Thought⟩))) := by
    simp [thoughtsGetHandler, hid, ThoughtMap.lookup_assign_self, marshalThoughts]
  rw [hrun, hget]
  exact ⟨rfl, rfl, rfl, ⟨⟨V4⟩, Now, post.Title, post.Thought⟩, rfl, rfl, rfl, rfl⟩

/-- Witness of C1: create on the sample store with generated identifier `idB`,
then get with the text `"b"`. -/
theorem post_then_get_witness :
    sampleLib.decodeThoughtsPost "post-t1-c1" = .ok ⟨"t1", "c1"⟩ ∧
    sampleLib.FromString ((⟨[("id", "b")], ""⟩ : Request).var "id") = .ok idB ∧
    (thoughtsGetHandler sampleLib
      (thoughtsPostHandler sampleLib idB ⟨2000⟩ storeA ResponseWriter.fresh
        ⟨[], "post-t1-c1"⟩).1
      ResponseWriter.fresh ⟨[("id", "b")], ""⟩).2.status = some 200 :=
  have h := post_then_get sampleLib idB ⟨2000⟩ storeA ⟨[], "post-t1-c1"⟩ ⟨[("id", "b")], ""⟩
    ⟨"t1", "c1"⟩ rfl rfl
  ⟨rfl, rfl, h.2.2.1⟩

/-! ## Update then read -/

/-- C2, counterexample: on the sample store, whose record under `idA` was created
at instant 1000, an update whose body decodes to a record with creation time 5000
answers 204, and the get that follows returns the document of the decoded body,
whose creation time is 5000, not 1000. -/
theorem created_time_changes_on_update :
    storeA.lookup ⟨idA⟩ = some thoughtA ∧
    sampleLib.decodeThoughts "edit-a" = .ok editA ∧
    (editThoughtsHandler sampleLib storeA ResponseWriter.fresh
      ⟨[("id", "a")], "edit-a"⟩).2.status = some 204 ∧
    (thoughtsGetHandler sampleLib
      (editThoughtsHandler sampleLib storeA ResponseWriter.fresh ⟨[("id", "a")], "edit-a"⟩).1
      ResponseWriter.fresh ⟨[("id", "a")], ""⟩).2.body = [thoughtsJson editA] ∧
    (thoughtsGetHandler sampleLib
      (editThoughtsHandler sampleLib storeA ResponseWriter.fresh ⟨[("id", "a")], "edit-a"⟩).1
      ResponseWriter.fresh ⟨[("id", "a")], ""⟩).2.status = some 200 ∧
    editA.CreatedTime ≠ thoughtA.CreatedTime :=
  ⟨by decide, rfl, rfl, rfl, rfl, by decide⟩

/-- C2, amended: after a successful update (204) of the record at the path
identifier, a get of that identifier answers 200 with the record decoded from the
update body: its `Title`, `Content` and `CreatedTime` are those of the body, so
the creation time is the one the record had before exactly when the body
resubmits that creation time. -/
theorem update_then_get (lib : Lib) (m : ThoughtMap) (r r2 : Request) (id : UUID)
    (old thought : Thoughts)
    (hid : lib.FromString (r.var "id") = .ok id) (hold : m.lookup ⟨id⟩ = some old)
    (hbody : lib.decodeThoughts r.Body = .ok thought)
    (hid2 : lib.FromString (r2.var "id") = .ok id) :
    (editThoughtsHandler lib m ResponseWriter.fresh r).2.status = some 204 ∧
    (thoughtsGetHandler lib (editThoughtsHandler lib m ResponseWriter.fresh r).1
      ResponseWriter.fresh r2).2.status = some 200 ∧
    ∃ stored : Thoughts,
      (thoughtsGetHandler lib (editThoughtsHandler lib m ResponseWriter.fresh r).1
        ResponseWriter.fresh r2).2.body = [thoughtsJson stored] ∧
      stored.Title = thought.Title ∧ stored.Content = thought.Content ∧
      stored.CreatedTime = thought.CreatedTime ∧
      (stored.CreatedTime = old.CreatedTime ↔ thought.CreatedTime = old.CreatedTime) := by
  have hrun : editThoughtsHandler lib m ResponseWriter.fresh r =
      (m.assign ⟨id⟩ thought,
        ((ResponseWriter.fresh.headerSet "Content-Type" "application/json").WriteHeader
          StatusNoContent)) := by
    simp [editThoughtsHandler, hid, hold, hbody]
  have hget : thoughtsGetHandler lib (m.assign ⟨id⟩ thought) ResponseWriter.fresh r2 =
      (m.assign ⟨id⟩ thought,
        (((ResponseWriter.fresh.headerSet "Content-Type" "application/json").WriteHeader
          StatusOK).Write (thoughtsJson thought))) := by
    simp [thoughtsGetHandler, hid2, ThoughtMap.lookup_assign_self, marshalThoughts]
  rw [hrun, hget]
  exact ⟨rfl, rfl, thought, rfl, rfl, rfl, rfl, Iff.rfl⟩

/-- Witness of the amended C2 on the sample store. -/
theorem update_then_get_witness :
    sampleLib.FromString ((⟨[("id", "a")], "edit-a"⟩ : Request).var "id") = .ok idA ∧
    storeA.lookup ⟨idA⟩ = some thoughtA ∧
    sampleLib.decodeThoughts "edit-a" = .ok editA ∧
    (thoughtsGetHandler sampleLib
      (editThoughtsHandler sampleLib storeA ResponseWriter.fresh ⟨[("id", "a")], "edit-a"⟩).1
      ResponseWriter.fresh ⟨[("id", "a")], ""⟩).2.status = some 200 :=
  have h := update_then_get sampleLib storeA ⟨[("id", "a")], "edit-a"⟩ ⟨[("id", "a")], ""⟩ idA
    thoughtA editA rfl (by decide) rfl rfl
  ⟨rfl, by decide, rfl, h.2.1⟩

/-! ## Reads -/

/-- C10: reads do not mutate and are repeatable.  For every store, response
writer and request, `thoughtsGetHandler`, `getAllThoughts` and `pingHandler`
return the store they were given; and a second get-by-id with the same path
identifier, served right after a first one, writes the same response (status,
header fields and body) as the first. -/
theorem reads_do_not_mutate (lib : Lib) (m : ThoughtMap) (rw : ResponseWriter)
    (rangeOrder : List ThoughtsID) (r r2 : Request) (hsame : r2.var "id" = r.var "id") :
    (thoughtsGetHandler lib m rw r).1 = m ∧
    (getAllThoughts rangeOrder m rw r).1 = m ∧
    (pingHandler m rw r).1 = m ∧
    (thoughtsGetHandler lib (thoughtsGetHandler lib m ResponseWriter.fresh r).1
      ResponseWriter.fresh r2).2 = (thoughtsGetHandler lib m ResponseWriter.fresh r).2 := by
  have hget : ∀ (w : ResponseWriter) (q : Request), (thoughtsGetHandler lib m w q).1 = m := by
    intro w q
    simp only [thoughtsGetHandler]
    repeat' split
    all_goals rfl
  refine ⟨hget rw r, ?_, ?_, ?_⟩
  · simp only [getAllThoughts]
    split <;> rfl
  · rfl
  · rw [hget]
    simp only [thoughtsGetHandler, hsame]

/-- Witness of C10: two gets of `"a"` on the sample store, the second with another
body. -/
theorem reads_do_not_mutate_witness :
    (⟨[("id", "a")], "x"⟩ : Request).var "id" = (⟨[("id", "a")], ""⟩ : Request).var "id" ∧
    (thoughtsGetHandler sampleLib
      (thoughtsGetHandler sampleLib storeA ResponseWriter.fresh ⟨[("id", "a")], ""⟩).1
      ResponseWriter.fresh ⟨[("id", "a")], "x"⟩).2 =
      (thoughtsGetHandler sampleLib storeA ResponseWriter.fresh ⟨[("id", "a")], ""⟩).2 ∧
    (thoughtsGetHandler sampleLib storeA ResponseWriter.fresh ⟨[("id", "a")], ""⟩).2.status
      = some 200 :=
  have h := reads_do_not_mutate sampleLib storeA ResponseWriter.fresh [⟨idA⟩]
    ⟨[("id", "a")], ""⟩ ⟨[("id", "a")], "x"⟩ rfl
  ⟨rfl, h.2.2.2, rfl⟩

/-! ## Listing -/

theorem ThoughtMap.lookupEntries_of_mem (k : ThoughtsID) (v : Thoughts)
    (l : List (ThoughtsID × Thoughts)) (hnd : (l.map Prod.fst).Nodup) (hmem : (k, v) ∈ l) :
    ThoughtMap.lookupEntries k l = some v := by
  induction l with
  | nil => simp at hmem
  | cons e rest ih =>
    obtain ⟨k1, v1⟩ := e
    rw [List.map_cons, List.nodup_cons] at hnd
    rcases List.mem_cons.mp hmem with heq | hrest
    · have h1 : k1 = k := (congrArg Prod.fst heq).symm
      have h2 : v1 = v := (congrArg Prod.snd heq).symm
      simp only [ThoughtMap.lookupEntries, h1, h2, if_true]
    · have hne : ¬ k1 = k := by
        intro h
        apply hnd.1
        rw [h]
        exact List.mem_map.mpr ⟨(k, v), hrest, rfl⟩
      simp only [ThoughtMap.lookupEntries, hne, if_false]
      exact ih hnd.2 hrest

theorem ThoughtMap.keys_map_index (m : ThoughtMap) : m.keys.map m.index = m.values := by
  simp only [ThoughtMap.keys, ThoughtMap.values, List.map_map]
  apply List.map_congr_left
  intro e he
  obtain ⟨k, v⟩ := e
  simp only [Function.comp, ThoughtMap.index, ThoughtMap.lookup,
    ThoughtMap.lookupEntries_of_mem k v m.entries m.nodup he, Option.getD_some]

theorem foldl_append_index (m : ThoughtMap) (order : List ThoughtsID) (acc : List Thoughts) :
    order.foldl (fun thoughts key => ThoughtsSlice.append thoughts (m.index key))
      (ThoughtsSlice.mk acc) = ThoughtsSlice.mk (acc ++ order.map m.index) := by
  induction order generalizing acc with
  | nil => simp
  | cons k rest ih =>
    have hstep : ThoughtsSlice.append (ThoughtsSlice.mk acc) (m.index k) =
        ThoughtsSlice.mk (acc ++ [m.index k]) := rfl
    rw [List.foldl_cons, hstep, ih, List.map_cons, List.append_assoc, List.singleton_append]

theorem getAllThoughts_run (m : ThoughtMap) (rangeOrder : List ThoughtsID) (r : Request) :
    getAllThoughts rangeOrder m ResponseWriter.fresh r =
      (m, (((ResponseWriter.fresh.headerSet "Content-Type" "application/json").WriteHeader
        StatusOK).Write (Json.arr ((rangeOrder.map m.index).map thoughtsJson)))) := by
  simp only [getAllThoughts, ThoughtsSlice.make0, foldl_append_index, List.nil_append,
    marshalSlice]

/-- C8: listing returns all and only the stored records.  For every store and
every order in which `range` yields its keys, `getAllThoughts` answers 200 with one
JSON array; the records in the array are a permutation of the values of the store
and are as many as the store has keys; and for a store without keys the body is
the empty array, which is not `null`. -/
theorem getAllThoughts_lists_store (m : ThoughtMap) (rangeOrder : List ThoughtsID)
    (r : Request) (hrange : rangeOrder.Perm m.keys) :
    (getAllThoughts rangeOrder m ResponseWriter.fresh r).2.status = some 200 ∧
    (getAllThoughts rangeOrder m ResponseWriter.fresh r).2.body =
      [Json.arr ((rangeOrder.map m.index).map thoughtsJson)] ∧
    (rangeOrder.map m.index).Perm m.values ∧
    (rangeOrder.map m.index).length = m.keys.length ∧
    (m.keys = [] →
      (getAllThoughts rangeOrder m ResponseWriter.fresh r).2.body = [Json.arr []]) ∧
    Json.arr [] ≠ Json.null := by
  rw [getAllThoughts_run]
  refine ⟨rfl, rfl, ?_, ?_, ?_, ?_⟩
  · rw [← ThoughtMap.keys_map_index]
    exact hrange.map _
  · rw [List.length_map]
    exact hrange.length_eq
  · intro hempty
    rw [hempty] at hrange
    rw [List.perm_nil.mp hrange]
    rfl
  · intro h
    exact Json.noConfusion h

/-- Witness of C8: the sample store with two records, walked in the order `idA`,
`idB`. -/
theorem getAllThoughts_lists_store_witness :
    [(⟨idA⟩ : ThoughtsID), ⟨idB⟩].Perm storeAB.keys ∧
    (getAllThoughts [⟨idA⟩, ⟨idB⟩] storeAB ResponseWriter.fresh ⟨[], ""⟩).2.body =
      [Json.arr [thoughtsJson thoughtA, thoughtsJson thoughtB]] ∧
    (getAllThoughts [] ThoughtMap.empty ResponseWriter.fresh ⟨[], ""⟩).2.body =
      [Json.arr []] :=
  have h := getAllThoughts_lists_store storeAB [⟨idA⟩, ⟨idB⟩] ⟨[], ""⟩ (by decide)
  ⟨by decide, h.2.1.trans rfl, rfl⟩

/-! ## Content type -/

/-- The success responses of the four handlers of the thoughts routes are sent
with `Content-Type: application/json`. -/
theorem thoughts_routes_content_type (lib : Lib) (V4 : UUID) (Now : Time) (m : ThoughtMap)
    (rangeOrder : List ThoughtsID) (r : Request) :
    (getAllThoughts rangeOrder m ResponseWriter.fresh r).2.sentHeader.get "Content-Type"
      = some "application/json" ∧
    ((thoughtsPostHandler lib V4 Now m ResponseWriter.fresh r).2.status = some 201 →
      (thoughtsPostHandler lib V4 Now m ResponseWriter.fresh r).2.sentHeader.get "Content-Type"
        = some "application/json") ∧
    ((thoughtsGetHandler lib m ResponseWriter.fresh r).2.status = some 200 →
      (thoughtsGetHandler lib m ResponseWriter.fresh r).2.sentHeader.get "Content-Type"
        = some "application/json") ∧
    ((editThoughtsHandler lib m ResponseWriter.fresh r).2.status = some 204 →
      (editThoughtsHandler lib m ResponseWriter.fresh r).2.sentHeader.get "Content-Type"
        = some "application/json") := by
  refine ⟨?_, ?_, ?_, ?_⟩
  · rw [getAllThoughts_run]
    rfl
  · simp only [thoughtsPostHandler]
    repeat' split
    all_goals (intro _; rfl)
  · simp only [thoughtsGetHandler]
    repeat' split
    all_goals (intro _; rfl)
  · simp only [editThoughtsHandler]
    repeat' split
    all_goals (intro _; rfl)

/-- C9, at the failing handler: for every store and request, the response of
`pingHandler` is the status 200 and the JSON payload of the service, and neither
the header map of the writer nor the header fields sent with the status line hold
a `Content-Type`. -/
theorem pingHandler_no_content_type (m : ThoughtMap) (r : Request) :
    (pingHandler m ResponseWriter.fresh r).2.status = some 200 ∧
    (pingHandler m ResponseWriter.fresh r).2.body =
      [Json.obj [("Status", Json.str "pong"), ("Service", Json.str "scatter-brain")]] ∧
    (pingHandler m ResponseWriter.fresh r).2.header.get "Content-Type" = none ∧
    (pingHandler m ResponseWriter.fresh r).2.sentHeader.get "Content-Type" = none :=
  ⟨rfl, rfl, rfl, rfl⟩

/-! ## Identifiers and keys -/

theorem thoughtsGetHandler_store (lib : Lib) (m : ThoughtMap) (rw : ResponseWriter)
    (r : Request) : (thoughtsGetHandler lib m rw r).1 = m := by
  simp only [thoughtsGetHandler]
  repeat' split
  all_goals rfl

theorem getAllThoughts_store (rangeOrder : List ThoughtsID) (m : ThoughtMap)
    (rw : ResponseWriter) (r : Request) : (getAllThoughts rangeOrder m rw r).1 = m := by
  simp only [getAllThoughts]
  split <;> rfl

theorem IdIsKey_empty : IdIsKey ThoughtMap.empty := by
  intro k t h
  exact Option.noConfusion h

theorem IdIsKey_assign (m : ThoughtMap) (k : ThoughtsID) (v : Thoughts) (hm : IdIsKey m)
    (hv : v.ID = k) : IdIsKey (m.assign k v) := by
  intro k1 t h
  by_cases hk : k1 = k
  · rw [hk, ThoughtMap.lookup_assign_self] at h
    rw [hk, ← Option.some.inj h, hv]
  · rw [ThoughtMap.lookup_assign_ne m k k1 v hk] at h
    exact hm k1 t h

theorem IdIsKey_post (lib : Lib) (V4 : UUID) (Now : Time) (m : ThoughtMap)
    (rw : ResponseWriter) (r : Request) (hm : IdIsKey m) :
    IdIsKey (thoughtsPostHandler lib V4 Now m rw r).1 := by
  simp only [thoughtsPostHandler]
  repeat' split
  all_goals first | exact hm | exact IdIsKey_assign m _ _ hm rfl

theorem IdIsKey_put (lib : Lib) (m : ThoughtMap) (rw : ResponseWriter) (r : Request)
    (hm : IdIsKey m) (hkeep : (ApiCall.put r).keepsID lib) :
    IdIsKey (editThoughtsHandler lib m rw r).1 := by
  simp only [editThoughtsHandler]
  split
  · exact hm
  · rename_i id hid
    split
    · exact hm
    · split
      · exact hm
      · rename_i thought hbody
        simp only [ApiCall.keepsID, hid, hbody, bodyKeepsID] at hkeep
        exact IdIsKey_assign m _ _ hm hkeep

theorem IdIsKey_serve (lib : Lib) (m : ThoughtMap) (c : ApiCall) (hm : IdIsKey m)
    (hkeep : c.keepsID lib) : IdIsKey (serve lib m c).1 := by
  cases c with
  | ping r => exact hm
  | post V4 Now r => exact IdIsKey_post lib V4 Now m _ r hm
  | list rangeOrder r =>
    simp only [serve, getAllThoughts_store]
    exact hm
  | get r =>
    simp only [serve, thoughtsGetHandler_store]
    exact hm
  | put r => exact IdIsKey_put lib m _ r hm hkeep

theorem IdIsKey_serveAll (lib : Lib) (calls : List ApiCall) (m : ThoughtMap) (hm : IdIsKey m)
    (hkeep : ∀ c ∈ calls, c.keepsID lib) : IdIsKey (serveAll lib m calls) := by
  induction calls generalizing m with
  | nil => exact hm
  | cons c cs ih =>
    simp only [serveAll]
    apply ih
    · exact IdIsKey_serve lib m c hm (hkeep c (List.mem_cons_self c cs))
    · intro c1 hc1
      exact hkeep c1 (List.mem_cons_of_mem c hc1)

/-- C3, counterexample: starting from the empty store, two creates with the fresh
identifiers `idA` and `idB` followed by an update of `idA` whose body carries
`idB` leave a store in which the record under the key `idA` has the `ID` `idB`,
the same `ID` as the record under the key `idB`. -/
theorem id_differs_from_key_after_update :
    Admissible sampleLib ThoughtMap.empty rekeyCalls ∧
    (serveAll sampleLib ThoughtMap.empty rekeyCalls).lookup ⟨idA⟩ = some editB ∧
    editB.ID ≠ ⟨idA⟩ ∧
    (serveAll sampleLib ThoughtMap.empty rekeyCalls).lookup ⟨idB⟩ =
      some ⟨⟨idB⟩, ⟨2000⟩, "t1", "c1"⟩ ∧
    editB.ID = (⟨⟨idB⟩, ⟨2000⟩, "t1", "c1"⟩ : Thoughts).ID ∧
    ¬ IdIsKey (serveAll sampleLib ThoughtMap.empty rekeyCalls) := by
  have hA : (serveAll sampleLib ThoughtMap.empty rekeyCalls).lookup ⟨idA⟩ = some editB := by
    decide
  refine ⟨by decide, hA, by decide, by decide, rfl, ?_⟩
  intro h
  exact absurd (h ⟨idA⟩ editB hA) (by decide)

/-- C3, amended: in every store reached from the empty store by create, update,
get, list and ping calls, where creates use fresh generated identifiers and every
update whose body decodes carries in its `ID` the identifier of its path, the
record stored under a key has that key as its `ID`, so no two entries of the store
carry the same `ID`. -/
theorem id_is_key_when_updates_keep_id (lib : Lib) (calls : List ApiCall)
    (_hadm : Admissible lib ThoughtMap.empty calls)
    (hkeep : ∀ c ∈ calls, c.keepsID lib) :
    (∀ k t, (serveAll lib ThoughtMap.empty calls).lookup k = some t → t.ID = k) ∧
    (∀ k1 k2 t1 t2, k1 ≠ k2 →
      (serveAll lib ThoughtMap.empty calls).lookup k1 = some t1 →
      (serveAll lib ThoughtMap.empty calls).lookup k2 = some t2 → t1.ID ≠ t2.ID) := by
  have hinv := IdIsKey_serveAll lib calls ThoughtMap.empty IdIsKey_empty hkeep
  refine ⟨hinv, ?_⟩
  intro k1 k2 t1 t2 hne h1 h2 heq
  exact hne ((hinv k1 t1 h1).symm.trans (heq.trans (hinv k2 t2 h2)))

/-- Witness of the amended C3: a create, an update that resubmits the identifier,
a get and a listing on the sample library. -/
theorem id_is_key_when_updates_keep_id_witness :
    Admissible sampleLib ThoughtMap.empty keptCalls ∧
    (∀ c ∈ keptCalls, c.keepsID sampleLib) ∧
    (serveAll sampleLib ThoughtMap.empty keptCalls).lookup ⟨idA⟩ = some editA ∧
    (∀ k t, (serveAll sampleLib ThoughtMap.empty keptCalls).lookup k = some t → t.ID = k) :=
  have hadm : Admissible sampleLib ThoughtMap.empty keptCalls := by decide
  have hkeep : ∀ c ∈ keptCalls, c.keepsID sampleLib := by decide
  ⟨hadm, hkeep, by decide,
    (id_is_key_when_updates_keep_id sampleLib keptCalls hadm hkeep).1⟩

end ScatterBrain
